import Mathlib

/-!
Verification development for the piano-game backend's transaction/ledger and
reward-settlement subsystem.  JavaScript `Number` arithmetic is modelled over `ℚ`,
timestamps are milliseconds since the epoch (`ℚ`), and Mongo documents are modelled
as Lean structures restricted to the fields the verified operations read or write.
-/

namespace PianoLedger

/-- Transaction `type` enum of the Transaction mongoose schema. -/
inductive TxType
  | game_reward | withdrawal | deposit | bonus | referral | penalty | refund | fee | purchase
  deriving DecidableEq, Repr

/-- Transaction `status` enum of the Transaction mongoose schema. -/
inductive TxStatus
  | pending | processing | completed | failed | cancelled | expired
  deriving DecidableEq, Repr

/-- All nine transaction types (for per-type grouping of the balance aggregation). -/
def TxType.all : List TxType :=
  [.game_reward, .withdrawal, .deposit, .bonus, .referral, .penalty, .refund, .fee, .purchase]

/-- The credit set hard-coded in `getUserBalance`. -/
def creditTypes : List TxType := [.game_reward, .deposit, .bonus, .referral, .refund]

/-- The debit set hard-coded in `getUserBalance`. -/
def debitTypes : List TxType := [.withdrawal, .penalty, .fee, .purchase]

/-- A row of the transaction collection, restricted to the fields the balance and
risk queries read. -/
structure TxRow where
  userId : Nat
  type : TxType
  status : TxStatus
  amount : ℚ
  createdAt : ℚ
  deriving DecidableEq, Repr

/-- Per-type total of the `getUserBalance` aggregation: the `$match` stage keeps the
user's `completed` transactions and the `$group` stage sums `amount` by `type`. -/
def typeTotal (txs : List TxRow) (userId : Nat) (ty : TxType) : ℚ :=
  ((txs.filter fun t =>
      decide (t.userId = userId ∧ t.status = TxStatus.completed ∧ t.type = ty)).map
    (fun t => t.amount)).sum

/-- Shallow embedding of `transactionSchema.statics.getUserBalance`: group the user's
completed transactions by `type`, add the totals of credit types, subtract the totals
of debit types, and clamp the result at 0 (`Math.max(0, balance)`).  Folding over all
nine types is equivalent to folding over the groups the aggregation returns, because
a type with no matching row has total 0. -/
def getUserBalance (txs : List TxRow) (userId : Nat) : ℚ :=
  let balance := TxType.all.foldl
    (fun b ty =>
      if creditTypes.contains ty then b + typeTotal txs userId ty
      else if debitTypes.contains ty then b - typeTotal txs userId ty
      else b) 0
  max 0 balance

/-- Sum of `amount` over the user's completed transactions whose type lies in `s`
(stated from the specification's words, to compare with `getUserBalance`). -/
def completedSum (txs : List TxRow) (userId : Nat) (s : List TxType) : ℚ :=
  ((txs.filter fun t =>
      decide (t.userId = userId ∧ t.status = TxStatus.completed ∧ t.type ∈ s)).map
    (fun t => t.amount)).sum

theorem typeTotal_cons (t : TxRow) (txs : List TxRow) (u : Nat) (ty : TxType) :
    typeTotal (t :: txs) u ty =
      (if t.userId = u ∧ t.status = TxStatus.completed ∧ t.type = ty then t.amount else 0) +
        typeTotal txs u ty := by
  by_cases h : t.userId = u ∧ t.status = TxStatus.completed ∧ t.type = ty <;>
    simp [typeTotal, List.filter_cons, h]

theorem completedSum_cons (t : TxRow) (txs : List TxRow) (u : Nat) (s : List TxType) :
    completedSum (t :: txs) u s =
      (if t.userId = u ∧ t.status = TxStatus.completed ∧ t.type ∈ s then t.amount else 0) +
        completedSum txs u s := by
  by_cases h : t.userId = u ∧ t.status = TxStatus.completed ∧ t.type ∈ s <;>
    simp [completedSum, List.filter_cons, h]

/-- Signed per-type fold of `getUserBalance`, written out over the nine types. -/
theorem balance_fold_eq (txs : List TxRow) (u : Nat) :
    TxType.all.foldl
      (fun b ty =>
        if creditTypes.contains ty then b + typeTotal txs u ty
        else if debitTypes.contains ty then b - typeTotal txs u ty
        else b) 0 =
      completedSum txs u creditTypes - completedSum txs u debitTypes := by
  induction txs with
  | nil =>
      simp [TxType.all, creditTypes, debitTypes, typeTotal, completedSum]
  | cons t txs ih =>
      simp only [TxType.all, creditTypes, debitTypes, List.foldl, List.contains_cons,
        List.contains_nil, typeTotal_cons, completedSum_cons] at *
      rcases t with ⟨tu, tty, tst, tam, tcr⟩
      by_cases hu : tu = u
      · by_cases hst : tst = TxStatus.completed
        · cases tty <;>
            simp_all [List.mem_cons] <;> linarith
        · simp_all
      · simp_all

/-- C1. `getUserBalance(userId)` equals the sum of `amount` over the user's completed
transactions of a credit type (`game_reward`, `deposit`, `bonus`, `referral`,
`refund`) minus the sum over the completed transactions of a debit type
(`withdrawal`, `penalty`, `fee`, `purchase`), clamped to be nonnegative. -/
theorem getUserBalance_is_clamped_credit_minus_debit (txs : List TxRow) (u : Nat) :
    getUserBalance txs u =
      max 0 (completedSum txs u creditTypes - completedSum txs u debitTypes) := by
  unfold getUserBalance
  rw [balance_fold_eq]

/-- Payment gateway enum (`payment.gateway`). -/
inductive Gateway
  | stripe | epcm | manual
  deriving DecidableEq, Repr

/-- One entry of `audit.statusHistory`.  `srcStatus = none` models the string
`'unknown'` that the pre-save hook writes for the `from` field: the hook reads
`previousStatus?.status` from a `findOne` query that is never awaited, so the
value is always `undefined` and the fallback `'unknown'` is stored. -/
structure StatusEntry where
  srcStatus : Option TxStatus
  dstStatus : TxStatus
  reason : String
  changedBy : Option Nat
  deriving DecidableEq, Repr

/-- One entry of `audit.logs` (`action`, `status`, `message`; the free-form `data`
payload carries no verified content and is omitted). -/
structure LogEntry where
  action : String
  logStatus : String
  message : String
  deriving DecidableEq, Repr

/-- A transaction document, restricted to the fields the verified methods read or
write.  `metadata.fees.*` are flattened to `fees*`; `payment.*` to `gateway`,
`gatewayTransactionId`, `retryCount`, `maxRetries`, `nextRetry`;
`verification.*` to `verificationRequired`, `riskScore`, `flagged`. -/
structure Txn where
  userId : Nat
  type : TxType
  amount : ℚ
  status : TxStatus
  feesPlatform : ℚ
  feesPayment : ℚ
  feesWithdrawal : ℚ
  feesTotal : ℚ
  gateway : Option Gateway
  gatewayTransactionId : Option Nat
  retryCount : Nat
  maxRetries : Nat
  nextRetry : Option ℚ
  verificationRequired : Bool
  riskScore : ℚ
  flagged : Bool
  statusHistory : List StatusEntry
  logs : List LogEntry
  deriving DecidableEq, Repr

/-- Virtual `netAmount`: `this.amount - (this.metadata.fees?.total || 0)`. -/
def Txn.netAmount (t : Txn) : ℚ := t.amount - t.feesTotal

/-- Virtual `isFailed`: status is one of `failed`, `cancelled`, `expired`. -/
def Txn.isFailed (t : Txn) : Bool :=
  t.status = TxStatus.failed ∨ t.status = TxStatus.cancelled ∨ t.status = TxStatus.expired

/-- Virtual `canRetry`: `isFailed && retryCount < maxRetries`. -/
def Txn.canRetry (t : Txn) : Bool :=
  t.isFailed && decide (t.retryCount < t.maxRetries)

/-- Shallow embedding of the Transaction `pre('save')` hook, for saves issued by the
instance methods below (the document is persisted, so `isNew` is false and the
transaction-ID generation branch is skipped).  `statusModified` is mongoose's
modified-paths flag for `status`.  The hook
recomputes `fees.total` as the sum of the three fee parts, appends a
status-history entry whose `from` is always `'unknown'` (`srcStatus = none`, see
`StatusEntry`), requires verification and adds 30 capped risk points for
withdrawals over 1000, and flags the transaction when the risk score exceeds 70. -/
def preSave (t : Txn) (statusModified : Bool) : Txn :=
  let t1 := { t with feesTotal := t.feesPlatform + t.feesPayment + t.feesWithdrawal }
  let t2 :=
    if statusModified then
      { t1 with statusHistory := t1.statusHistory ++ [⟨none, t1.status, "Status updated", none⟩] }
    else t1
  let t3 :=
    if t2.type = TxType.withdrawal ∧ t2.amount > 1000 then
      { t2 with verificationRequired := true, riskScore := min 100 (t2.riskScore + 30) }
    else t2
  if t3.riskScore > 70 then
    { t3 with flagged := true }
  else t3

/-- `addLog` pushes an entry onto `audit.logs` and saves the document, which runs
the pre-save hook.  `statusModified` carries mongoose's modified-paths state for
`status` at the time of the save. -/
def addLog (t : Txn) (action logStatus message : String) (statusModified : Bool) : Txn :=
  preSave { t with logs := t.logs ++ [⟨action, logStatus, message⟩] } statusModified

/-- Shallow embedding of `transactionSchema.methods.updateStatus`: set the status
unconditionally, push an explicit history entry recording the old status, then
`addLog` (whose save also runs the pre-save hook).  On a clean document mongoose
marks `status` modified exactly when the new value differs from the old one. -/
def updateStatus (t : Txn) (newStatus : TxStatus) (reason : String) (changedBy : Option Nat) : Txn :=
  let oldStatus := t.status
  let t1 := { t with status := newStatus }
  let t2 :=
    { t1 with statusHistory := t1.statusHistory ++ [⟨some oldStatus, newStatus, reason, changedBy⟩] }
  addLog t2 "status_change" "status" "Status changed" (decide (newStatus ≠ oldStatus))

/-- Shallow embedding of `transactionSchema.methods.markCompleted`: set the status
to `completed` (the stored gateway response carries no verified content) and save
via `addLog`. -/
def markCompleted (t : Txn) : Txn :=
  let oldStatus := t.status
  let t1 := { t with status := TxStatus.completed }
  addLog t1 "completed" "success" "Transaction completed successfully"
    (decide (TxStatus.completed ≠ oldStatus))

/-- Shallow embedding of `transactionSchema.methods.markFailed`: set the status to
`failed`; if the transaction can still be retried (`canRetry`, evaluated after the
status is set, so it reduces to `retryCount < maxRetries`), increment `retryCount`
and schedule `nextRetry = now + retryCount * 30 minutes` (with the incremented
count, in milliseconds); then save via `addLog`. -/
def markFailed (t : Txn) (reason : String) (now : ℚ) : Txn :=
  let oldStatus := t.status
  let t1 := { t with status := TxStatus.failed }
  let t2 :=
    if t1.canRetry then
      { t1 with retryCount := t1.retryCount + 1,
                nextRetry := some (now + ((t1.retryCount : ℚ) + 1) * 30 * 60 * 1000) }
    else t1
  addLog t2 "failed" "error" reason (decide (TxStatus.failed ≠ oldStatus))

/-- The status-history entry appended by the pre-save hook when the status was
modified: `from` is always `'unknown'`. -/
def hookEntry (s : TxStatus) : StatusEntry := ⟨none, s, "Status updated", none⟩

theorem preSave_status (t : Txn) (m : Bool) : (preSave t m).status = t.status := by
  simp only [preSave]
  split_ifs <;> rfl

theorem preSave_statusHistory (t : Txn) (m : Bool) :
    (preSave t m).statusHistory =
      t.statusHistory ++ (if m then [hookEntry t.status] else []) := by
  simp only [preSave, hookEntry]
  split_ifs <;> simp

theorem addLog_status (t : Txn) (a b c : String) (m : Bool) :
    (addLog t a b c m).status = t.status := by
  unfold addLog; rw [preSave_status]

theorem addLog_statusHistory (t : Txn) (a b c : String) (m : Bool) :
    (addLog t a b c m).statusHistory =
      t.statusHistory ++ (if m then [hookEntry t.status] else []) := by
  unfold addLog; rw [preSave_statusHistory]

theorem preSave_retryCount (t : Txn) (m : Bool) : (preSave t m).retryCount = t.retryCount := by
  simp only [preSave]; split_ifs <;> rfl

theorem preSave_nextRetry (t : Txn) (m : Bool) : (preSave t m).nextRetry = t.nextRetry := by
  simp only [preSave]; split_ifs <;> rfl

theorem preSave_amount (t : Txn) (m : Bool) : (preSave t m).amount = t.amount := by
  simp only [preSave]; split_ifs <;> rfl

theorem preSave_type (t : Txn) (m : Bool) : (preSave t m).type = t.type := by
  simp only [preSave]; split_ifs <;> rfl

theorem addLog_retryCount (t : Txn) (a b c : String) (m : Bool) :
    (addLog t a b c m).retryCount = t.retryCount := by
  unfold addLog; rw [preSave_retryCount]

theorem addLog_nextRetry (t : Txn) (a b c : String) (m : Bool) :
    (addLog t a b c m).nextRetry = t.nextRetry := by
  unfold addLog; rw [preSave_nextRetry]

theorem addLog_amount (t : Txn) (a b c : String) (m : Bool) :
    (addLog t a b c m).amount = t.amount := by
  unfold addLog; rw [preSave_amount]

theorem addLog_type (t : Txn) (a b c : String) (m : Bool) :
    (addLog t a b c m).type = t.type := by
  unfold addLog; rw [preSave_type]

theorem updateStatus_status_eq (t : Txn) (s : TxStatus) (r : String) (c : Option Nat) :
    (updateStatus t s r c).status = s := by
  simp [updateStatus, addLog_status]

theorem updateStatus_statusHistory_eq (t : Txn) (s : TxStatus) (r : String) (c : Option Nat) :
    (updateStatus t s r c).statusHistory =
      t.statusHistory ++
        ⟨some t.status, s, r, c⟩ :: (if s = t.status then [] else [hookEntry s]) := by
  simp only [updateStatus, addLog_statusHistory]
  by_cases h : s = t.status <;> simp [h]

theorem markCompleted_status (t : Txn) : (markCompleted t).status = TxStatus.completed := by
  simp [markCompleted, addLog_status]

theorem hook_if_eq (s old : TxStatus) :
    (if decide (s ≠ old) = true then [hookEntry s] else []) =
      (if old = s then [] else [hookEntry s]) := by
  by_cases h : old = s
  · simp [h]
  · simp [h, Ne.symm h]

theorem markCompleted_statusHistory (t : Txn) :
    (markCompleted t).statusHistory =
      t.statusHistory ++
        (if t.status = TxStatus.completed then [] else [hookEntry TxStatus.completed]) := by
  simp only [markCompleted, addLog_statusHistory]
  rw [hook_if_eq]

theorem markFailed_status (t : Txn) (r : String) (now : ℚ) :
    (markFailed t r now).status = TxStatus.failed := by
  simp only [markFailed]
  split_ifs <;> simp [addLog_status]

theorem markFailed_statusHistory (t : Txn) (r : String) (now : ℚ) :
    (markFailed t r now).statusHistory =
      t.statusHistory ++
        (if t.status = TxStatus.failed then [] else [hookEntry TxStatus.failed]) := by
  simp only [markFailed]
  split_ifs <;> simp only [addLog_statusHistory] <;> rw [hook_if_eq] <;> simp_all

theorem markFailed_retry (t : Txn) (r : String) (now : ℚ) (h : t.retryCount < t.maxRetries) :
    (markFailed t r now).retryCount = t.retryCount + 1 ∧
      (markFailed t r now).nextRetry = some (now + ((t.retryCount : ℚ) + 1) * 30 * 60 * 1000) := by
  simp only [markFailed]
  have hcr : Txn.canRetry { t with status := TxStatus.failed } = true := by
    simp [Txn.canRetry, Txn.isFailed, h]
  rw [if_pos hcr]
  simp [addLog_retryCount, addLog_nextRetry]

theorem markFailed_no_retry (t : Txn) (r : String) (now : ℚ) (h : ¬ t.retryCount < t.maxRetries) :
    (markFailed t r now).retryCount = t.retryCount ∧
      (markFailed t r now).nextRetry = t.nextRetry := by
  simp only [markFailed]
  have hcr : Txn.canRetry { t with status := TxStatus.failed } = false := by
    simp [Txn.canRetry, Txn.isFailed, h]
  rw [if_neg (by simp [hcr])]
  simp [addLog_retryCount, addLog_nextRetry]

/-- The legal-transition table asserted by the specification (stated from the
spec's words, to be compared against `updateStatus`): `pending→processing`,
`processing→completed`, `processing→failed`, `failed→processing` (retry),
`any→cancelled`, `pending→expired`. -/
def specAllowedTransition : TxStatus → TxStatus → Bool
  | TxStatus.pending, TxStatus.processing => true
  | TxStatus.processing, TxStatus.completed => true
  | TxStatus.processing, TxStatus.failed => true
  | TxStatus.failed, TxStatus.processing => true
  | _, TxStatus.cancelled => true
  | TxStatus.pending, TxStatus.expired => true
  | _, _ => false

/-- A concrete completed withdrawal transaction, used as a counterexample input. -/
def exTxn : Txn :=
  { userId := 7, type := TxType.withdrawal, amount := 100, status := TxStatus.completed,
    feesPlatform := 0, feesPayment := 0, feesWithdrawal := 5, feesTotal := 5,
    gateway := some Gateway.epcm, gatewayTransactionId := none,
    retryCount := 0, maxRetries := 3, nextRetry := none,
    verificationRequired := false, riskScore := 0, flagged := false,
    statusHistory := [], logs := [] }

/-- C4 counterexample: the transition `completed→pending` is not in the claimed
legal set, yet `updateStatus` performs it — the requested status change is applied
and the status does not stay unchanged. -/
theorem updateStatus_accepts_completed_to_pending :
    specAllowedTransition TxStatus.completed TxStatus.pending = false ∧
      (updateStatus exTxn TxStatus.pending "force" none).status = TxStatus.pending ∧
      exTxn.status = TxStatus.completed := by
  exact ⟨rfl, updateStatus_status_eq exTxn TxStatus.pending "force" none, rfl⟩

/-- C4 amended: `updateStatus` validates nothing — every requested status change,
whether or not it is in the set `{pending→processing, processing→completed,
processing→failed, failed→processing, any→cancelled, pending→expired}`, is
applied, and the transaction's status becomes exactly the requested value. -/
theorem updateStatus_applies_every_transition (t : Txn) (s : TxStatus) (r : String)
    (c : Option Nat) : (updateStatus t s r c).status = s :=
  updateStatus_status_eq t s r c

/-- A concrete pending withdrawal transaction, used as a counterexample input. -/
def exTxnPending : Txn :=
  { exTxn with status := TxStatus.pending }

/-- C5 counterexample: a `pending→processing` transition through `updateStatus`
grows `audit.statusHistory` by two entries, not one — the method pushes its
explicit entry and the save run by `addLog` pushes a second hook entry. -/
theorem updateStatus_appends_two_entries_not_one :
    (updateStatus exTxnPending TxStatus.processing "start" none).statusHistory.length ≠
      exTxnPending.statusHistory.length + 1 := by
  rw [updateStatus_statusHistory_eq]
  simp [exTxnPending, exTxn]

/-- C5 amended: the audit status history is append-only — every operation leaves the
existing entries in place and only appends at the tail — but the appended entries
are: for `updateStatus`, the explicit `{from, to, reason, changedBy}` entry plus,
when the status actually changed, one pre-save hook entry whose `from` is
`'unknown'`; for `markCompleted` and `markFailed`, no explicit entry — only the
hook entry with `from = 'unknown'`, and only when the status actually changed. -/
theorem statusHistory_append_only (t : Txn) (s : TxStatus) (rs : String) (c : Option Nat)
    (reason : String) (now : ℚ) :
    ((updateStatus t s rs c).statusHistory =
        t.statusHistory ++
          ⟨some t.status, s, rs, c⟩ :: (if s = t.status then [] else [hookEntry s])) ∧
      ((markCompleted t).statusHistory =
        t.statusHistory ++
          (if t.status = TxStatus.completed then [] else [hookEntry TxStatus.completed])) ∧
      ((markFailed t reason now).statusHistory =
        t.statusHistory ++
          (if t.status = TxStatus.failed then [] else [hookEntry TxStatus.failed])) :=
  ⟨updateStatus_statusHistory_eq t s rs c, markCompleted_statusHistory t,
    markFailed_statusHistory t reason now⟩

/-- Shallow embedding of `transactionSchema.methods.calculateFees`.
`withdrawalFeeRate` models `parseFloat(process.env.WITHDRAWAL_FEE) || 0.05`
(1/20 when the environment variable is unset).  For withdrawals the platform
withdrawal fee is `amount * rate` and the gateway payment fee comes from the
per-gateway rate table (`stripe`: `max(0.30, amount * 0.029)`; `epcm`:
`amount * 0.025`); for deposits only the stripe processing fee applies.
`fees.total` is the sum of the three parts and the result is stored on
`metadata.fees`. -/
def calculateFees (t : Txn) (withdrawalFeeRate : ℚ) : Txn :=
  let feesParts : ℚ × ℚ × ℚ :=
    if t.type = TxType.withdrawal then
      let w := t.amount * withdrawalFeeRate
      let pay : ℚ :=
        if t.gateway = some Gateway.stripe then max (3/10) (t.amount * (29/1000))
        else if t.gateway = some Gateway.epcm then t.amount * (25/1000)
        else 0
      (0, pay, w)
    else if t.type = TxType.deposit then
      (0, if t.gateway = some Gateway.stripe then max (3/10) (t.amount * (29/1000)) else 0, 0)
    else (0, 0, 0)
  { t with feesPlatform := feesParts.1, feesPayment := feesParts.2.1,
           feesWithdrawal := feesParts.2.2,
           feesTotal := feesParts.1 + feesParts.2.1 + feesParts.2.2 }

/-- C6. For a withdrawal processed through the bank-transfer gateway (`epcm`),
`calculateFees` stores withdrawal fee `amount × rate` (default rate 5%), gateway
payment fee `amount × 2.5%` from the rate table, `fees.total` as the sum of the
three fee parts, and the transaction's `netAmount` is `amount − fees.total`; at
`amount = 1000` and the default rate these are 50, 25, 75 and 925, matching
`max(5, 1000 × 0.025) = 25` for the payment fee. -/
theorem calculateFees_withdrawal_epcm (t : Txn) (rate : ℚ)
    (hty : t.type = TxType.withdrawal) (hgw : t.gateway = some Gateway.epcm) :
    (calculateFees t rate).feesWithdrawal = t.amount * rate ∧
      (calculateFees t rate).feesPayment = t.amount * (25/1000) ∧
      (calculateFees t rate).feesTotal =
        (calculateFees t rate).feesPlatform + (calculateFees t rate).feesPayment +
          (calculateFees t rate).feesWithdrawal ∧
      (calculateFees t rate).netAmount = t.amount - (calculateFees t rate).feesTotal ∧
      (t.amount = 1000 → rate = 1/20 →
        (calculateFees t rate).feesWithdrawal = 50 ∧
          (calculateFees t rate).feesPayment = 25 ∧
          (calculateFees t rate).feesTotal = 75 ∧
          (calculateFees t rate).netAmount = 925) := by
  have hs : t.gateway ≠ some Gateway.stripe := by rw [hgw]; simp
  refine ⟨?_, ?_, ?_, ?_, ?_⟩ <;>
    simp [calculateFees, Txn.netAmount, hty, hgw, hs]
  intro ha hr
  rw [ha, hr]
  norm_num

/-- A concrete pending withdrawal over the bank-transfer gateway with amount 1000. -/
def exWithdrawal1000 : Txn :=
  { exTxnPending with amount := 1000 }

/-- Witness for C6 at the concrete input of the specification's scenario. -/
theorem calculateFees_withdrawal_epcm_witness :
    (calculateFees exWithdrawal1000 (1/20)).feesWithdrawal = 50 ∧
      (calculateFees exWithdrawal1000 (1/20)).feesPayment = 25 ∧
      (calculateFees exWithdrawal1000 (1/20)).feesTotal = 75 ∧
      (calculateFees exWithdrawal1000 (1/20)).netAmount = 925 :=
  (calculateFees_withdrawal_epcm exWithdrawal1000 (1/20) rfl rfl).2.2.2.2 rfl rfl

/-- The `coins` wallet block of the User schema. -/
structure Coins where
  total : ℚ
  available : ℚ
  pending : ℚ
  deriving DecidableEq, Repr

/-- Shallow embedding of `userSchema.methods.addCoins`: credit `available` and
`total` by the same amount (`pending` untouched). -/
def addCoins (c : Coins) (amount : ℚ) : Coins :=
  { c with available := c.available + amount, total := c.total + amount }

/-- Normalized result of a payment-rail helper
(`processBankTransfer` / `processCryptoWithdrawal` / `processPayPalWithdrawal`). -/
structure GatewayResult where
  success : Bool
  error : String
  deriving DecidableEq, Repr

/-- Shallow embedding of the settlement step of `PaymentService.processWithdrawal`,
entered after the withdrawal transaction has been created and `amount` has been
reserved (`deductCoins`: `available -= amount`; then `pending += amount`).  On
gateway success the transaction is marked completed and the pending reservation is
released; on failure it is marked failed (which schedules a retry inside
`markFailed`) and the reserved amount is refunded from `pending` back to
`available`. -/
def settleWithdrawal (u : Coins) (t : Txn) (amount : ℚ) (result : GatewayResult)
    (now : ℚ) : Coins × Txn :=
  if result.success then
    ({ u with pending := u.pending - amount }, markCompleted t)
  else
    ({ u with available := u.available + amount, pending := u.pending - amount },
      markFailed t result.error now)

/-- C7. When the gateway settlement of a withdrawal of amount `a` fails, the
transaction is marked `failed`, the reserved funds are returned (`available`
increases by `a`, `pending` decreases by `a`), and while `retryCount < maxRetries`
a retry is scheduled with `retryCount` incremented and
`nextRetry = now + retryCount × 30 minutes`; in particular a first failure
(`retryCount = 0`) leaves `retryCount = 1` and `nextRetry = now + 30 minutes`. -/
theorem withdrawal_failure_refunds_and_schedules_retry (u : Coins) (t : Txn) (a : ℚ)
    (err : String) (now : ℚ) :
    ((settleWithdrawal u t a ⟨false, err⟩ now).2.status = TxStatus.failed) ∧
      ((settleWithdrawal u t a ⟨false, err⟩ now).1.available = u.available + a) ∧
      ((settleWithdrawal u t a ⟨false, err⟩ now).1.pending = u.pending - a) ∧
      (t.retryCount < t.maxRetries →
        (settleWithdrawal u t a ⟨false, err⟩ now).2.retryCount = t.retryCount + 1 ∧
          (settleWithdrawal u t a ⟨false, err⟩ now).2.nextRetry =
            some (now + ((t.retryCount : ℚ) + 1) * 30 * 60 * 1000)) ∧
      (t.retryCount = 0 → 0 < t.maxRetries →
        (settleWithdrawal u t a ⟨false, err⟩ now).2.retryCount = 1 ∧
          (settleWithdrawal u t a ⟨false, err⟩ now).2.nextRetry =
            some (now + 30 * 60 * 1000)) := by
  have hfail : (⟨false, err⟩ : GatewayResult).success = false := rfl
  simp only [settleWithdrawal, hfail, Bool.false_eq_true, if_false]
  refine ⟨markFailed_status t err now, trivial, trivial, fun h => markFailed_retry t err now h, ?_⟩
  intro h0 hmax
  have h : t.retryCount < t.maxRetries := by omega
  have := markFailed_retry t err now h
  rw [h0] at this
  simpa using this

/-- Witness for C7: a first failure on the concrete withdrawal leaves
`retryCount = 1` and `nextRetry = now + 30 minutes`, with the reserve refunded. -/
theorem withdrawal_failure_witness :
    ((settleWithdrawal ⟨1000, 0, 1000⟩ exWithdrawal1000 1000 ⟨false, "declined"⟩ 0).2.status =
        TxStatus.failed) ∧
      ((settleWithdrawal ⟨1000, 0, 1000⟩ exWithdrawal1000 1000 ⟨false, "declined"⟩ 0).1.available =
        0 + 1000) ∧
      ((settleWithdrawal ⟨1000, 0, 1000⟩ exWithdrawal1000 1000 ⟨false, "declined"⟩ 0).2.retryCount =
        1) ∧
      ((settleWithdrawal ⟨1000, 0, 1000⟩ exWithdrawal1000 1000 ⟨false, "declined"⟩ 0).2.nextRetry =
        some (0 + 30 * 60 * 1000)) := by
  have h := withdrawal_failure_refunds_and_schedules_retry ⟨1000, 0, 1000⟩ exWithdrawal1000
    1000 "declined" 0
  exact ⟨h.1, h.2.1, (h.2.2.2.2 rfl (by decide)).1, (h.2.2.2.2 rfl (by decide)).2⟩

/-- State read by the gateway success-webhook handler: the transaction found by
`payment.gatewayTransactionId` (`none` when no row matches) together with the
wallet of that transaction's user. -/
structure WebhookState where
  txn : Option Txn
  userCoins : Coins
  deriving DecidableEq, Repr

/-- Shallow embedding of `PaymentService.handlePaymentSuccess`: only a transaction
that is still `processing` is acted upon — it is marked completed and, when it is
a `deposit`, the user is credited `amount * 100` BigCoin; in every other case the
handler does nothing. -/
def handlePaymentSuccess (s : WebhookState) : WebhookState :=
  match s.txn with
  | none => s
  | some t =>
    if t.status = TxStatus.processing then
      let t2 := markCompleted t
      let coins2 :=
        if t.type = TxType.deposit then addCoins s.userCoins (t.amount * 100) else s.userCoins
      { txn := some t2, userCoins := coins2 }
    else s

/-- C9. The success-webhook handler is idempotent: it acts only on a transaction
still in `processing` (any other status is a no-op), and since acting marks the
transaction `completed`, delivering the same success notification twice equals
delivering it once — the user's balance is never credited a second time. -/
theorem handlePaymentSuccess_idempotent (s : WebhookState) :
    handlePaymentSuccess (handlePaymentSuccess s) = handlePaymentSuccess s ∧
      (∀ t : Txn, s.txn = some t → t.status ≠ TxStatus.processing →
        handlePaymentSuccess s = s) := by
  constructor
  · rcases hs : s.txn with _ | t
    · simp [handlePaymentSuccess, hs]
    · by_cases hp : t.status = TxStatus.processing
      · have h1 : handlePaymentSuccess s =
            { txn := some (markCompleted t),
              userCoins :=
                if t.type = TxType.deposit then addCoins s.userCoins (t.amount * 100)
                else s.userCoins } := by
          simp [handlePaymentSuccess, hs, hp]
        rw [h1]
        have hc : (markCompleted t).status = TxStatus.completed := markCompleted_status t
        simp [handlePaymentSuccess, hc]
      · have h1 : handlePaymentSuccess s = s := by
          simp [handlePaymentSuccess, hs, hp]
        rw [h1, h1]
  · intro t ht hp
    simp [handlePaymentSuccess, ht, hp]

/-- Witness for C9: a concrete already-completed deposit notification is a no-op. -/
theorem handlePaymentSuccess_witness :
    handlePaymentSuccess
        ⟨some { exTxn with type := TxType.deposit, status := TxStatus.completed },
          ⟨0, 0, 0⟩⟩ =
      ⟨some { exTxn with type := TxType.deposit, status := TxStatus.completed }, ⟨0, 0, 0⟩⟩ :=
  (handlePaymentSuccess_idempotent
    ⟨some { exTxn with type := TxType.deposit, status := TxStatus.completed }, ⟨0, 0, 0⟩⟩).2
    { exTxn with type := TxType.deposit, status := TxStatus.completed } rfl (by decide)

/-- Shallow embedding of the confirmed branch of `PaymentService.processDeposit`
(`paymentIntent.status === 'succeeded'`): the deposit transaction, created in
`processing` with the stripe gateway, is marked completed and the user is credited
`amount * 100` BigCoin (the hard-coded `1 USD = 100 BigCoin` conversion). -/
def processDepositSucceeded (u : Coins) (userId : Nat) (amount : ℚ) (gwId : Nat) :
    Coins × Txn :=
  let t : Txn :=
    { userId := userId, type := TxType.deposit, amount := amount,
      status := TxStatus.processing, feesPlatform := 0, feesPayment := 0,
      feesWithdrawal := 0, feesTotal := 0, gateway := some Gateway.stripe,
      gatewayTransactionId := some gwId, retryCount := 0, maxRetries := 3,
      nextRetry := none, verificationRequired := false, riskScore := 0,
      flagged := false, statusHistory := [], logs := [] }
  let t2 := markCompleted t
  (addCoins u (amount * 100), t2)

/-- C10. Every successful deposit of amount `a` credits the user's
`coins.available` and `coins.total` by exactly `a × 100` (the fixed 1-to-100
conversion), both on the synchronous `processDeposit` path and on the
asynchronous webhook path, leaving `coins.pending` unchanged. -/
theorem deposit_credits_hundredfold (u : Coins) (userId : Nat) (a : ℚ) (gwId : Nat) :
    ((processDepositSucceeded u userId a gwId).1.available = u.available + a * 100 ∧
        (processDepositSucceeded u userId a gwId).1.total = u.total + a * 100 ∧
        (processDepositSucceeded u userId a gwId).1.pending = u.pending) ∧
      (∀ (s : WebhookState) (t : Txn), s.txn = some t →
        t.status = TxStatus.processing → t.type = TxType.deposit →
          (handlePaymentSuccess s).userCoins.available =
              s.userCoins.available + t.amount * 100 ∧
            (handlePaymentSuccess s).userCoins.total = s.userCoins.total + t.amount * 100 ∧
            (handlePaymentSuccess s).userCoins.pending = s.userCoins.pending) := by
  refine ⟨⟨rfl, rfl, rfl⟩, ?_⟩
  intro s t ht hp hd
  simp [handlePaymentSuccess, ht, hp, hd, addCoins]

/-- A concrete deposit of amount 7 still in `processing`. -/
def exDeposit7 : Txn :=
  { exTxn with type := TxType.deposit, status := TxStatus.processing, amount := 7 }

/-- Witness for C10 on the webhook path: a processing deposit of 7 credits 700. -/
theorem deposit_credits_hundredfold_witness :
    (handlePaymentSuccess ⟨some exDeposit7, ⟨1, 2, 3⟩⟩).userCoins.available = 2 + 7 * 100 :=
  ((deposit_credits_hundredfold ⟨0, 0, 0⟩ 0 0 0).2
    ⟨some exDeposit7, ⟨1, 2, 3⟩⟩ exDeposit7 rfl rfl rfl).1

/-- Session status enum of the Game schema (`session.status`). -/
inductive SessionStatus
  | active | completed | abandoned | paused
  deriving DecidableEq, Repr

/-- An achievement's optional reward block (`achievements[].reward`), with
optional coin and experience bonuses. -/
structure AchReward where
  coins : Option ℚ
  experience : Option ℚ
  deriving DecidableEq, Repr

/-- An unlocked achievement; `claimRewards` reads only the `reward` block. -/
structure Achievement where
  reward : Option AchReward
  deriving DecidableEq, Repr

/-- A game-session document, restricted to the fields the settlement path reads. -/
structure GameDoc where
  userId : Nat
  sessionStatus : SessionStatus
  baseScore : ℚ
  comboBonus : ℚ
  accuracyBonus : ℚ
  speedBonus : ℚ
  totalScore : ℚ
  rewardsPoints : ℚ
  rewardsCoins : ℚ
  rewardsExperience : ℚ
  bonusCoins : ℚ
  claimed : Bool
  achievements : List Achievement
  deriving DecidableEq, Repr

/-- Shallow embedding of the scoring/reward part of the Game `pre('save')` hook:
`totalScore = baseScore + comboBonus + accuracyBonus + speedBonus`; when the total
score is among the modified paths (`scoreModified`), `points = floor(totalScore)`,
`coins = floor(totalScore * coinPerPoint)` and
`experience = floor(totalScore / 100)`.  `coinPerPoint` models
`parseFloat(process.env.COIN_PER_POINT) || 0.001` (1/1000 when unset). -/
def gamePreSave (g : GameDoc) (coinPerPoint : ℚ) (scoreModified : Bool) : GameDoc :=
  let ts := g.baseScore + g.comboBonus + g.accuracyBonus + g.speedBonus
  let g1 := { g with totalScore := ts }
  if scoreModified then
    { g1 with rewardsPoints := ((⌊ts⌋ : ℤ) : ℚ),
              rewardsCoins := ((⌊ts * coinPerPoint⌋ : ℤ) : ℚ),
              rewardsExperience := ((⌊ts / 100⌋ : ℤ) : ℚ) }
  else g1

/-- The `forEach` of `claimRewards` over the achievement list, accumulating
`achievement.reward.coins || 0` (skipping achievements without a reward block)
on top of `init`. -/
def addAchievementCoins (init : ℚ) (l : List Achievement) : ℚ :=
  l.foldl
    (fun acc a =>
      match a.reward with
      | none => acc
      | some r => acc + r.coins.getD 0) init

/-- Same fold for `achievement.reward.experience || 0`. -/
def addAchievementExperience (init : ℚ) (l : List Achievement) : ℚ :=
  l.foldl
    (fun acc a =>
      match a.reward with
      | none => acc
      | some r => acc + r.experience.getD 0) init

/-- One achievement's coin contribution (for restating the fold as a sum). -/
def achCoinValue (a : Achievement) : ℚ :=
  match a.reward with
  | none => 0
  | some r => r.coins.getD 0

/-- One achievement's experience contribution. -/
def achExperienceValue (a : Achievement) : ℚ :=
  match a.reward with
  | none => 0
  | some r => r.experience.getD 0

theorem addAchievementCoins_eq (init : ℚ) (l : List Achievement) :
    addAchievementCoins init l = init + (l.map achCoinValue).sum := by
  induction l generalizing init with
  | nil => simp [addAchievementCoins]
  | cons a l ih =>
      have hstep : addAchievementCoins init (a :: l) =
          addAchievementCoins (init + achCoinValue a) l := by
        rcases ha : a.reward with _ | r <;>
          simp [addAchievementCoins, achCoinValue, ha]
      rw [hstep, ih]
      simp [List.map_cons, List.sum_cons]
      ring

theorem addAchievementExperience_eq (init : ℚ) (l : List Achievement) :
    addAchievementExperience init l = init + (l.map achExperienceValue).sum := by
  induction l generalizing init with
  | nil => simp [addAchievementExperience]
  | cons a l ih =>
      have hstep : addAchievementExperience init (a :: l) =
          addAchievementExperience (init + achExperienceValue a) l := by
        rcases ha : a.reward with _ | r <;>
          simp [addAchievementExperience, achExperienceValue, ha]
      rw [hstep, ih]
      simp [List.map_cons, List.sum_cons]
      ring

/-- Errors surfaced by the claim path (`throw new Error(...)` messages). -/
inductive ClaimError
  | alreadyClaimed
  | notFoundOrNotCompleted
  deriving DecidableEq, Repr

/-- The value returned by a successful claim. -/
structure ClaimResult where
  coins : ℚ
  experience : ℚ
  deriving DecidableEq, Repr

/-- Shallow embedding of `gameSchema.methods.claimRewards`: fail when the rewards
were already claimed; otherwise total up `rewards.coins + rewards.bonusCoins` plus
the achievement coin bonuses and `rewards.experience` plus the achievement
experience bonuses, set `claimed = true` (with `claimedAt = now`, not modelled)
and return the totals. -/
def GameDoc.claimRewards (g : GameDoc) : Except ClaimError (GameDoc × ClaimResult) :=
  if g.claimed then Except.error ClaimError.alreadyClaimed
  else
    Except.ok
      ({ g with claimed := true },
        ⟨addAchievementCoins (g.rewardsCoins + g.bonusCoins) g.achievements,
          addAchievementExperience g.rewardsExperience g.achievements⟩)

/-- State threaded through `GameService.claimRewards`: the game session, the
claiming user's wallet and experience, and the transaction collection. -/
structure ClaimState where
  game : GameDoc
  coins : Coins
  experience : ℚ
  txs : List TxRow
  deriving DecidableEq, Repr

/-- Shallow embedding of `GameService.claimRewards`: the lookup filters on
`session.status = 'completed'` (a session in any other state is not found), the
claimed flag is then checked, the game's own `claimRewards` runs, the user is
credited (`addCoins`, `addExperience`) and one `game_reward` transaction is
inserted, immediately `completed` (`Transaction.createGameReward`). -/
def serviceClaimRewards (s : ClaimState) (now : ℚ) :
    Except ClaimError (ClaimState × ClaimResult) :=
  if s.game.sessionStatus ≠ SessionStatus.completed then
    Except.error ClaimError.notFoundOrNotCompleted
  else if s.game.claimed then Except.error ClaimError.alreadyClaimed
  else
    match s.game.claimRewards with
    | Except.error e => Except.error e
    | Except.ok (g2, r) =>
      Except.ok
        ({ game := g2,
           coins := addCoins s.coins r.coins,
           experience := s.experience + r.experience,
           txs := s.txs ++
             [⟨s.game.userId, TxType.game_reward, TxStatus.completed, r.coins, now⟩] }, r)

/-- C2. Reward settlement is at most once: a session that is not `completed` fails
with the session-not-found/not-completed error; a `completed` session whose
`claimed` flag is already true fails with the already-claimed error; and a
successful claim appends exactly one `game_reward` transaction, credits the wallet
once, sets `claimed`, and makes any second sequential claim of the same session
fail with the already-claimed error. -/
theorem claim_rewards_at_most_once (s : ClaimState) (now now2 : ℚ) :
    (s.game.sessionStatus ≠ SessionStatus.completed →
        serviceClaimRewards s now = Except.error ClaimError.notFoundOrNotCompleted) ∧
      (s.game.sessionStatus = SessionStatus.completed → s.game.claimed = true →
        serviceClaimRewards s now = Except.error ClaimError.alreadyClaimed) ∧
      (∀ (s2 : ClaimState) (r : ClaimResult),
        serviceClaimRewards s now = Except.ok (s2, r) →
          s2.game.claimed = true ∧
            s2.txs = s.txs ++
              [⟨s.game.userId, TxType.game_reward, TxStatus.completed, r.coins, now⟩] ∧
            s2.coins.available = s.coins.available + r.coins ∧
            serviceClaimRewards s2 now2 = Except.error ClaimError.alreadyClaimed) := by
  refine ⟨?_, ?_, ?_⟩
  · intro h
    simp [serviceClaimRewards, h]
  · intro h hc
    simp [serviceClaimRewards, h, hc]
  · intro s2 r hok
    by_cases h : s.game.sessionStatus = SessionStatus.completed
    · by_cases hc : s.game.claimed
      · simp [serviceClaimRewards, h, hc] at hok
      · simp [serviceClaimRewards, GameDoc.claimRewards, h, hc] at hok
        obtain ⟨hs2, hr⟩ := hok
        subst hs2
        refine ⟨rfl, ?_, ?_, ?_⟩
        · rw [← hr]
        · rw [← hr]; rfl
        · simp [serviceClaimRewards, h]
    · simp [serviceClaimRewards, h] at hok

/-- A concrete completed, unclaimed session and claim state for witnesses. -/
def exGame : GameDoc :=
  { userId := 5, sessionStatus := SessionStatus.completed, baseScore := 10000,
    comboBonus := 0, accuracyBonus := 0, speedBonus := 0, totalScore := 10000,
    rewardsPoints := 10000, rewardsCoins := 10, rewardsExperience := 100,
    bonusCoins := 0, claimed := false, achievements := [] }

/-- The claim state holding `exGame`, an empty wallet and an empty ledger. -/
def exClaimState : ClaimState :=
  { game := exGame, coins := ⟨0, 0, 0⟩, experience := 0, txs := [] }

/-- Witness for C2: on the concrete completed unclaimed session, the first claim
succeeds with one appended `game_reward` row and the second claim fails. -/
theorem claim_rewards_at_most_once_witness :
    ∀ (s2 : ClaimState) (r : ClaimResult),
      serviceClaimRewards exClaimState 0 = Except.ok (s2, r) →
        s2.game.claimed = true ∧
          s2.txs = exClaimState.txs ++
            [⟨exGame.userId, TxType.game_reward, TxStatus.completed, r.coins, 0⟩] ∧
          s2.coins.available = exClaimState.coins.available + r.coins ∧
          serviceClaimRewards s2 1 = Except.error ClaimError.alreadyClaimed :=
  (claim_rewards_at_most_once exClaimState 0 1).2.2

theorem completedSum_append_single (txs : List TxRow) (t : TxRow) (u : Nat)
    (s : List TxType) :
    completedSum (txs ++ [t]) u s =
      completedSum txs u s +
        (if t.userId = u ∧ t.status = TxStatus.completed ∧ t.type ∈ s then t.amount
          else 0) := by
  by_cases h : t.userId = u ∧ t.status = TxStatus.completed ∧ t.type ∈ s <;>
    simp [completedSum, List.filter_append, h]

/-- Appending a completed `game_reward` row of amount `a` for user `u` raises the
computed balance by exactly `a`, provided the unclamped net is nonnegative. -/
theorem balance_after_game_reward (txs : List TxRow) (u : Nat) (a now : ℚ)
    (ha : 0 ≤ a)
    (h : 0 ≤ completedSum txs u creditTypes - completedSum txs u debitTypes) :
    getUserBalance (txs ++ [⟨u, TxType.game_reward, TxStatus.completed, a, now⟩]) u =
      getUserBalance txs u + a := by
  simp only [getUserBalance]
  rw [balance_fold_eq, balance_fold_eq, completedSum_append_single,
    completedSum_append_single]
  have hc : TxType.game_reward ∈ creditTypes := by decide
  have hd : TxType.game_reward ∉ debitTypes := by decide
  simp only [hc, hd, and_true, and_false, if_true, if_false, true_and]
  have hs : completedSum txs u creditTypes + a - (completedSum txs u debitTypes + 0) =
      (completedSum txs u creditTypes - completedSum txs u debitTypes) + a := by ring
  rw [hs, max_eq_right (by linarith), max_eq_right h]

/-- C3. For a completed session the base reward follows the save-hook formula
`coins = floor(totalScore × coinPerPoint)` (rate 0.001 by default) and
`experience = floor(totalScore / 100)`; claiming adds every unlocked achievement's
fixed coin/experience bonus on top of `rewards.coins + rewards.bonusCoins`; and a
session with `totalScore = 10000` at the default rate yields reward coins 10 and
experience 100, and settling it increases the ledger balance by exactly 10. -/
theorem reward_formula_and_scenario :
    (∀ (g : GameDoc) (cpp : ℚ),
        (gamePreSave g cpp true).rewardsCoins =
            ((⌊(gamePreSave g cpp true).totalScore * cpp⌋ : ℤ) : ℚ) ∧
          (gamePreSave g cpp true).rewardsExperience =
            ((⌊(gamePreSave g cpp true).totalScore / 100⌋ : ℤ) : ℚ)) ∧
      (∀ g : GameDoc, g.claimed = false →
        g.claimRewards =
          Except.ok ({ g with claimed := true },
            ⟨g.rewardsCoins + g.bonusCoins + (g.achievements.map achCoinValue).sum,
              g.rewardsExperience + (g.achievements.map achExperienceValue).sum⟩)) ∧
      (∀ (s : ClaimState) (now : ℚ),
        s.game.sessionStatus = SessionStatus.completed →
        s.game.claimed = false →
        s.game.totalScore = 10000 →
        s.game.rewardsCoins = ((⌊s.game.totalScore * (1 / 1000)⌋ : ℤ) : ℚ) →
        s.game.rewardsExperience = ((⌊s.game.totalScore / 100⌋ : ℤ) : ℚ) →
        s.game.bonusCoins = 0 →
        s.game.achievements = [] →
        0 ≤ completedSum s.txs s.game.userId creditTypes -
            completedSum s.txs s.game.userId debitTypes →
        serviceClaimRewards s now =
            Except.ok
              ({ game := { s.game with claimed := true },
                 coins := addCoins s.coins 10,
                 experience := s.experience + 100,
                 txs := s.txs ++
                   [⟨s.game.userId, TxType.game_reward, TxStatus.completed, 10, now⟩] },
                ⟨10, 100⟩) ∧
          getUserBalance
              (s.txs ++ [⟨s.game.userId, TxType.game_reward, TxStatus.completed, 10, now⟩])
              s.game.userId =
            getUserBalance s.txs s.game.userId + 10) := by
  refine ⟨?_, ?_, ?_⟩
  · intro g cpp
    constructor <;> simp [gamePreSave]
  · intro g hg
    simp [GameDoc.claimRewards, hg, addAchievementCoins_eq, addAchievementExperience_eq]
  · intro s now hstat hcl hts hrc hre hbc hach hnet
    have h10 : s.game.rewardsCoins = 10 := by
      rw [hrc, hts, show (10000 : ℚ) * (1 / 1000) = ((10 : ℤ) : ℚ) by norm_num,
        Int.floor_intCast]
      norm_num
    have h100 : s.game.rewardsExperience = 100 := by
      rw [hre, hts, show (10000 : ℚ) / 100 = ((100 : ℤ) : ℚ) by norm_num,
        Int.floor_intCast]
      norm_num
    constructor
    · simp [serviceClaimRewards, GameDoc.claimRewards, hstat, hcl, hach, h10, h100, hbc,
        addAchievementCoins, addAchievementExperience]
    · exact balance_after_game_reward s.txs s.game.userId 10 now (by norm_num) hnet

/-- Witness for C3 at the concrete scenario state: the claim succeeds with reward
coins 10 and experience 100 and the empty ledger's balance rises by 10. -/
theorem reward_formula_and_scenario_witness :
    serviceClaimRewards exClaimState 0 =
        Except.ok
          ({ game := { exClaimState.game with claimed := true },
             coins := addCoins exClaimState.coins 10,
             experience := exClaimState.experience + 100,
             txs := exClaimState.txs ++
               [⟨exClaimState.game.userId, TxType.game_reward, TxStatus.completed, 10, 0⟩] },
            ⟨10, 100⟩) ∧
      getUserBalance
          (exClaimState.txs ++
            [⟨exClaimState.game.userId, TxType.game_reward, TxStatus.completed, 10, 0⟩])
          exClaimState.game.userId =
        getUserBalance exClaimState.txs exClaimState.game.userId + 10 :=
  reward_formula_and_scenario.2.2 exClaimState 0 rfl rfl rfl
    (by rw [show exClaimState.game.totalScore * (1 / 1000) = ((10 : ℤ) : ℚ) by
          norm_num [exClaimState, exGame], Int.floor_intCast]
        norm_num [exClaimState, exGame])
    (by rw [show exClaimState.game.totalScore / 100 = ((100 : ℤ) : ℚ) by
          norm_num [exClaimState, exGame], Int.floor_intCast]
        norm_num [exClaimState, exGame])
    rfl rfl (by simp [exClaimState, completedSum])

/-- User-record fields read by the risk monitor: account creation time and the
login-history locations (`security.loginHistory[i].location`, optional per entry;
the monitor reads element 0). -/
structure UserRec where
  id : Nat
  createdAt : ℚ
  loginHistory : List (Option String)
  deriving DecidableEq, Repr

/-- The intent passed to the risk monitor (`transactionData`): type, amount and an
optional location (absent or empty strings are falsy in the source). -/
structure TxIntent where
  type : TxType
  amount : ℚ
  location : Option String
  deriving DecidableEq, Repr

/-- The additive accumulator of `PaymentService.monitorSuspiciousActivity` before
the final cap: +30 for more than 3 withdrawals among the user's transactions of
the trailing 24 hours, +25 when the amount exceeds 5× the user's historical
average for the intent's type (only when such history exists), +40 for an account
younger than 7 days combined with an amount over 500, and +20 when the intent
carries a location different from the most recent login location. -/
def rawRiskScore (txs : List TxRow) (u : UserRec) (td : TxIntent) (now : ℚ) : ℚ :=
  let recent := txs.filter fun t =>
    decide (t.userId = u.id ∧ now - 24 * 60 * 60 * 1000 ≤ t.createdAt)
  let recentWithdrawals := recent.filter fun t => decide (t.type = TxType.withdrawal)
  let s1 : ℚ := if 3 < recentWithdrawals.length then 30 else 0
  let typeTxs := txs.filter fun t => decide (t.userId = u.id ∧ t.type = td.type)
  let s2 : ℚ :=
    if typeTxs ≠ [] then
      (if ((typeTxs.map fun t => t.amount).sum / typeTxs.length) * 5 < td.amount then 25
        else 0)
    else 0
  let s3 : ℚ :=
    if (now - u.createdAt) / (1000 * 60 * 60 * 24) < 7 ∧ 500 < td.amount then 40 else 0
  let s4 : ℚ :=
    match u.loginHistory, td.location with
    | lastLocation :: _, some loc => if lastLocation ≠ some loc then 20 else 0
    | _, _ => 0
  s1 + s2 + s3 + s4

/-- Result block returned by the risk monitor. -/
structure RiskResult where
  riskScore : ℚ
  requiresReview : Bool
  requiresApproval : Bool
  deriving DecidableEq, Repr

/-- Shallow embedding of `PaymentService.monitorSuspiciousActivity`: the returned
score is `min(100, riskScore)` while the two thresholds are evaluated on the
uncapped accumulator (equivalent under the cap, since the cap is 100 > 70). -/
def monitorSuspiciousActivity (txs : List TxRow) (u : UserRec) (td : TxIntent)
    (now : ℚ) : RiskResult :=
  let raw := rawRiskScore txs u td now
  { riskScore := min 100 raw,
    requiresReview := decide (70 < raw),
    requiresApproval := decide (50 < raw) }

/-- Velocity contribution stated from the spec's words: more than 3 withdrawals of
the user in the trailing 24 hours add 30 points. -/
def specVelocityPoints (txs : List TxRow) (u : UserRec) (now : ℚ) : ℚ :=
  if 3 < (txs.filter fun t =>
      decide (t.userId = u.id ∧ now - 24 * 60 * 60 * 1000 ≤ t.createdAt ∧
        t.type = TxType.withdrawal)).length then 30 else 0

/-- Deviation contribution stated from the spec's words: an amount above 5× the
user's historical average for the type adds 25, when history exists (the average
condition is written multiplied out). -/
def specDeviationPoints (txs : List TxRow) (u : UserRec) (td : TxIntent) : ℚ :=
  let hist := txs.filter fun t => decide (t.userId = u.id ∧ t.type = td.type)
  if hist ≠ [] ∧ 5 * (hist.map fun t => t.amount).sum < td.amount * hist.length then 25
  else 0

/-- New-account contribution stated from the spec's words: an account younger than
7 days (here in milliseconds) with an amount over 500 adds 40. -/
def specNewAccountPoints (u : UserRec) (td : TxIntent) (now : ℚ) : ℚ :=
  if now - u.createdAt < 7 * (1000 * 60 * 60 * 24) ∧ 500 < td.amount then 40 else 0

/-- Location contribution stated from the spec's words: a stated location that
differs from the most recent login location adds 20. -/
def specLocationPoints (u : UserRec) (td : TxIntent) : ℚ :=
  match u.loginHistory, td.location with
  | lastLocation :: _, some loc => if lastLocation ≠ some loc then 20 else 0
  | _, _ => 0

theorem velocity_filter_eq (txs : List TxRow) (u : UserRec) (now : ℚ) :
    ((txs.filter fun t =>
        decide (t.userId = u.id ∧ now - 24 * 60 * 60 * 1000 ≤ t.createdAt)).filter
      fun t => decide (t.type = TxType.withdrawal)) =
      txs.filter fun t =>
        decide (t.userId = u.id ∧ now - 24 * 60 * 60 * 1000 ≤ t.createdAt ∧
          t.type = TxType.withdrawal) := by
  rw [List.filter_filter]
  apply List.filter_congr
  intro t _
  by_cases h1 : t.userId = u.id ∧ now - 24 * 60 * 60 * 1000 ≤ t.createdAt <;>
    by_cases h2 : t.type = TxType.withdrawal <;>
    simp [h1, h2, ← and_assoc]

theorem avg_condition_iff (sum amt : ℚ) (len : ℕ) (h : len ≠ 0) :
    (sum / len) * 5 < amt ↔ 5 * sum < amt * len := by
  have hl : (0 : ℚ) < len := by
    exact_mod_cast Nat.pos_of_ne_zero h
  rw [div_mul_eq_mul_div, div_lt_iff₀ hl, mul_comm sum 5]

theorem rawRiskScore_decomposition (txs : List TxRow) (u : UserRec) (td : TxIntent)
    (now : ℚ) :
    rawRiskScore txs u td now =
      specVelocityPoints txs u now + specDeviationPoints txs u td +
        specNewAccountPoints u td now + specLocationPoints u td := by
  have hv : specVelocityPoints txs u now =
      (if 3 < ((txs.filter fun t =>
            decide (t.userId = u.id ∧ now - 24 * 60 * 60 * 1000 ≤ t.createdAt)).filter
          fun t => decide (t.type = TxType.withdrawal)).length then (30 : ℚ) else 0) := by
    rw [specVelocityPoints, velocity_filter_eq]
  have hn : specNewAccountPoints u td now =
      (if (now - u.createdAt) / (1000 * 60 * 60 * 24) < 7 ∧ 500 < td.amount then (40 : ℚ)
        else 0) := by
    rw [specNewAccountPoints]
    exact if_congr (and_congr_left' (div_lt_iff₀ (by norm_num)).symm) rfl rfl
  have hd : specDeviationPoints txs u td =
      (if (txs.filter fun t => decide (t.userId = u.id ∧ t.type = td.type)) ≠ [] then
        (if (((txs.filter fun t => decide (t.userId = u.id ∧ t.type = td.type)).map
                fun t => t.amount).sum /
              ((txs.filter fun t =>
                  decide (t.userId = u.id ∧ t.type = td.type)).length : ℚ)) * 5 <
            td.amount then (25 : ℚ) else 0)
        else 0) := by
    rw [specDeviationPoints]
    by_cases hlen : (txs.filter fun t => decide (t.userId = u.id ∧ t.type = td.type)) = []
    · rw [if_neg (fun hx => hx.1 hlen), if_neg (not_not_intro hlen)]
    · have hl : (txs.filter fun t =>
          decide (t.userId = u.id ∧ t.type = td.type)).length ≠ 0 :=
        fun h0 => hlen (List.length_eq_zero.mp h0)
      rw [if_congr (and_iff_right hlen) rfl rfl,
        if_congr ((avg_condition_iff _ td.amount _ hl).symm) rfl rfl, if_pos hlen]
  rw [hv, hd, hn]
  rfl

/-- Concrete epoch-style timestamp used by the risk scenario. -/
def exNow : ℚ := 1800000000000

/-- A three-day-old account with no login history. -/
def exRiskUser : UserRec := ⟨9, exNow - 3 * (1000 * 60 * 60 * 24), []⟩

/-- A 2000-unit withdrawal intent from a new location. -/
def exRiskIntent : TxIntent := ⟨TxType.withdrawal, 2000, some "SG"⟩

/-- C8 counterexample: a 2000-unit withdrawal from a 3-day-old account with no
transaction or login history scores exactly 40, and `requiresReview` is false
(the threshold is 70), so the claimed `requiresReview = true` fails and the
withdrawal is not held. -/
theorem new_account_withdrawal_not_reviewed :
    (monitorSuspiciousActivity [] exRiskUser exRiskIntent exNow).riskScore = 40 ∧
      (monitorSuspiciousActivity [] exRiskUser exRiskIntent exNow).requiresReview =
        false := by
  have hraw : rawRiskScore [] exRiskUser exRiskIntent exNow = 40 := by
    have h3 : (exNow - exRiskUser.createdAt) / (1000 * 60 * 60 * 24) < 7 := by
      rw [div_lt_iff₀ (by norm_num)]
      norm_num [exRiskUser, exNow]
    simp [rawRiskScore, exRiskUser, exRiskIntent, h3]
    norm_num [exRiskUser, exNow]
  constructor
  · show min 100 (rawRiskScore [] exRiskUser exRiskIntent exNow) = 40
    rw [hraw]; norm_num
  · show decide (70 < rawRiskScore [] exRiskUser exRiskIntent exNow) = false
    rw [hraw]; norm_num

/-- C8 amended. The risk accumulator is additive — the sum of the velocity (+30),
deviation (+25), new-account (+40) and location (+20) contributions — the returned
score is that sum capped at 100, `requiresReview` holds exactly when the sum
exceeds 70 and `requiresApproval` exactly when it exceeds 50; however, a
withdrawal of 2000 units from an account younger than 7 days with no transaction
history and no login history scores exactly 40 and yields
`requiresReview = false` and `requiresApproval = false`, so the withdrawal is NOT
held for manual review. -/
theorem risk_scoring_additive_and_new_account_scenario :
    (∀ (txs : List TxRow) (u : UserRec) (td : TxIntent) (now : ℚ),
        rawRiskScore txs u td now =
            specVelocityPoints txs u now + specDeviationPoints txs u td +
              specNewAccountPoints u td now + specLocationPoints u td ∧
          (monitorSuspiciousActivity txs u td now).riskScore =
            min 100 (rawRiskScore txs u td now) ∧
          ((monitorSuspiciousActivity txs u td now).requiresReview = true ↔
            70 < rawRiskScore txs u td now) ∧
          ((monitorSuspiciousActivity txs u td now).requiresApproval = true ↔
            50 < rawRiskScore txs u td now)) ∧
      (∀ (u : UserRec) (td : TxIntent) (now : ℚ),
        td.type = TxType.withdrawal → td.amount = 2000 →
        now - u.createdAt < 7 * (1000 * 60 * 60 * 24) →
        u.loginHistory = [] →
        monitorSuspiciousActivity [] u td now = ⟨40, false, false⟩) := by
  constructor
  · intro txs u td now
    refine ⟨rawRiskScore_decomposition txs u td now, rfl, ?_, ?_⟩ <;>
      simp [monitorSuspiciousActivity]
  · intro u td now hty hamt hage hlogin
    have hraw : rawRiskScore [] u td now = 40 := by
      have h3 : (now - u.createdAt) / (1000 * 60 * 60 * 24) < 7 := by
        rw [div_lt_iff₀ (by norm_num)]
        linarith
      simp [rawRiskScore, hlogin, h3, hamt]
      norm_num
    show RiskResult.mk _ _ _ = _
    rw [hraw]
    norm_num

/-- Witness for C8 at the concrete scenario input. -/
theorem risk_scoring_scenario_witness :
    monitorSuspiciousActivity [] exRiskUser exRiskIntent exNow = ⟨40, false, false⟩ :=
  risk_scoring_additive_and_new_account_scenario.2 exRiskUser exRiskIntent exNow rfl rfl
    (by norm_num [exRiskUser, exNow]) rfl

end PianoLedger
